import Mathlib

/-!
Verification of the KBS client plugin dispatcher
(`confidential-data-hub/kms/src/plugins/kbs/mod.rs`).

The development shallowly embeds the module:

* `get_aa_params_from_cmdline` — the kernel-command-line reader, as an
  executable function over the file contents (the actual file read is
  represented by an `Except String String` input: the content, or the I/O
  error text).
* `RealClient.new` — the backend registry.  The three concrete backends
  (`CcKbc`, `OnlineSevKbc`, `OfflineFsKbc`) live in sibling modules that are
  external collaborators here, so their constructors and `get_resource`
  methods are oracle fields of an `Env` record; the compile-time features
  `kbs` and `sev` are booleans of that record.
* `KbcClient.get_secret` / `KbcClient.new` — the client facade, in two
  forms: a functional single-call semantics (one call running under the
  cell lock, with an event log recording lock acquisition, constructor
  invocation, and backend fetch), and a small-step operational semantics of
  any number of concurrent callers sharing the `KBS_CLIENT` cell and its
  mutex, for the concurrency claims.
-/

/-- Error type of the module.  Modelled from the spec: the crate-level
`Error` enum is outside this module; the module itself only ever builds the
`KbsClientError` variant (spec section 7: a single client-error category
distinguished by message).  Backend-originated errors are opaque to the
dispatcher and are represented by the `BackendSpecific` variant. -/
inductive Error where
  | KbsClientError (msg : String)
  | BackendSpecific (details : String)
deriving DecidableEq, Repr

/-- Message of the `InvalidResourceURI` failure, from
`format!("illegal kbs resource uri: {name}")`. -/
def invalidResourceUriMsg (name : String) : String :=
  "illegal kbs resource uri: " ++ name

/-- Message of the `BootReadError` failure, from
`format!("read kernel cmdline failed: {e}")`. -/
def bootReadErrorMsg (e : String) : String :=
  "read kernel cmdline failed: " ++ e

/-- Message of the `MissingParameter` failure. -/
def missingParameterMsg : String :=
  "no `agent.aa_kbc_params` provided in kernel commandline!"

/-- Message of the `MalformedParameter` failure. -/
def malformedParameterMsg : String :=
  "Illegal `agent.aa_kbc_params` format provided in kernel commandline."

/-- Message of the `UnknownBackend` failure, from
`format!("unknown kbc name {others}, only support ...")`.  Note it is a
fixed enumeration, independent of the enabled compile-time features. -/
def unknownBackendMsg (others : String) : String :=
  "unknown kbc name " ++ others ++
    ", only support `cc_kbc`(feature `kbs`), `online_sev_kbc` (feature `sev`) and `offline_fs_kbc`."

/-- Rust `char::is_ascii_whitespace`: space, tab, line feed, form feed,
carriage return. -/
def isAsciiWhitespace (c : Char) : Bool :=
  c == ' ' || c == '\t' || c == '\n' || c == '\x0c' || c == '\r'

/-- Accumulator-passing worker for `splitAsciiWhitespace`. -/
def splitAsciiWhitespaceAux : List Char → List Char → List (List Char)
  | [], cur => if cur.isEmpty then [] else [cur.reverse]
  | c :: rest, cur =>
    if isAsciiWhitespace c then
      if cur.isEmpty then splitAsciiWhitespaceAux rest []
      else cur.reverse :: splitAsciiWhitespaceAux rest []
    else splitAsciiWhitespaceAux rest (c :: cur)

/-- Rust `str::split_ascii_whitespace`: the maximal runs of
non-ASCII-whitespace characters, in order; empty runs are not produced. -/
def splitAsciiWhitespace (s : List Char) : List (List Char) :=
  splitAsciiWhitespaceAux s []

/-- Prepend a character to the first part of a split result (the split
result is never empty; the empty case is unreachable padding). -/
def consHead (c : Char) : List (List Char) → List (List Char)
  | [] => [[c]]
  | h :: t => (c :: h) :: t

/-- Rust `str::split("::")`: cut at each leftmost non-overlapping
occurrence of the two-character separator `::`; empty parts are kept. -/
def splitColonColon : List Char → List (List Char)
  | [] => [[]]
  | [c] => [[c]]
  | c1 :: c2 :: rest =>
    if c1 == ':' && c2 == ':' then [] :: splitColonColon rest
    else consHead c1 (splitColonColon (c2 :: rest))

/-- Number of leftmost non-overlapping occurrences of `::` in a string,
the count that drives how many parts `splitColonColon` produces. -/
def countColonColon : List Char → Nat
  | [] => 0
  | [_] => 0
  | c1 :: c2 :: rest =>
    if c1 == ':' && c2 == ':' then countColonColon rest + 1
    else countColonColon (c2 :: rest)

/-- Rust `str::starts_with` for a literal pattern, over character lists:
`startsWithChars pat s` holds when `pat` begins `s`. -/
def startsWithChars : List Char → List Char → Bool
  | [], _ => true
  | _ :: _, [] => false
  | p :: ps, c :: cs => p == c && startsWithChars ps cs

/-- The literal key `agent.aa_kbc_params=` looked up on the kernel command
line. -/
def aaParamsKey : List Char := "agent.aa_kbc_params=".data

/-- First whitespace-separated token of the command line that starts with
`agent.aa_kbc_params=` (the `.find` of the source). -/
def firstParamToken (s : String) : Option (List Char) :=
  (splitAsciiWhitespace s.data).find? (fun para => startsWithChars aaParamsKey para)

/-- Embedding of `get_aa_params_from_cmdline`.  The `tokio::fs`
read of `/proc/cmdline` is represented by the `cmdline` argument: `.ok s`
for a successful read of contents `s`, `.error e` for a failed read with
error text `e`.  Dropping `aaParamsKey.length` characters is exactly the
source's `strip_prefix` (its `expect` cannot fire: the found token is
guaranteed to start with the key). -/
def get_aa_params_from_cmdline (cmdline : Except String String) :
    Except Error (String × String) :=
  match cmdline with
  | .error e => .error (.KbsClientError (bootReadErrorMsg e))
  | .ok s =>
    match firstParamToken s with
    | none => .error (.KbsClientError missingParameterMsg)
    | some para =>
      let aa_kbc_params := splitColonColon (para.drop aaParamsKey.length)
      if h : aa_kbc_params.length = 2 then
        .ok (String.mk (aa_kbc_params.get ⟨0, by omega⟩),
             String.mk (aa_kbc_params.get ⟨1, by omega⟩))
      else
        .error (.KbsClientError malformedParameterMsg)

/-- Environment of the dispatcher: the compile-time features, the kernel
command line, and the three backends as oracles.  `CC`, `SEV`, `OFS` are
the opaque backend handle types, `U` the `ResourceUri` type of the
external `resource_uri` crate (the dispatcher only observes parse success
or failure, via `parseUri`), `B` the secret-bytes type. -/
structure Env (CC SEV OFS U B : Type) where
  kbs : Bool
  sev : Bool
  cmdline : Except String String
  ccNew : String → Except Error CC
  sevNew : String → Except Error SEV
  offlineFsNew : Except Error OFS
  parseUri : String → Option U
  ccGetResource : CC → U → Except Error B
  sevGetResource : SEV → U → Except Error B
  offlineFsGetResource : OFS → U → Except Error B

/-- The `RealClient` enum: the closed sum of compiled-in backends. -/
inductive RealClient (CC SEV OFS : Type) where
  | Cc (c : CC)
  | Sev (c : SEV)
  | OfflineFs (c : OFS)
deriving DecidableEq

/-- Whether a kind token selects a backend compiled into a build with the
given feature switches. -/
def availableToken (kbs sev : Bool) (k : String) : Bool :=
  (kbs && k == "cc_kbc") || (sev && k == "online_sev_kbc") || k == "offline_fs_kbc"

/-- Embedding of `RealClient::new`: read the boot parameters, then match
the kind token against the compiled-in backends.  A `cfg`-gated match arm
is absent when its feature is off, in which case its token falls through
to the catch-all; the guards `E.kbs && ...` and `E.sev && ...` express
exactly that. -/
def RealClient.new {CC SEV OFS U B : Type} (E : Env CC SEV OFS U B) :
    Except Error (RealClient CC SEV OFS) :=
  match get_aa_params_from_cmdline E.cmdline with
  | .error e => .error e
  | .ok (kbc, _kbs_host) =>
    if E.kbs && kbc == "cc_kbc" then
      match E.ccNew _kbs_host with
      | .error e => .error e
      | .ok c => .ok (.Cc c)
    else if E.sev && kbc == "online_sev_kbc" then
      match E.sevNew _kbs_host with
      | .error e => .error e
      | .ok c => .ok (.Sev c)
    else if kbc == "offline_fs_kbc" then
      match E.offlineFsNew with
      | .error e => .error e
      | .ok c => .ok (.OfflineFs c)
    else
      .error (.KbsClientError (unknownBackendMsg kbc))

/-- Dispatch of `get_resource` by case analysis on the `RealClient`
variant (the `match client` block of `get_secret`).  The `&mut self`
mutation of the backend is internal backend state, opaque here. -/
def RealClient.get_resource {CC SEV OFS U B : Type} (E : Env CC SEV OFS U B) :
    RealClient CC SEV OFS → U → Except Error B
  | .Cc c, rid => E.ccGetResource c rid
  | .Sev c, rid => E.sevGetResource c rid
  | .OfflineFs c, rid => E.offlineFsGetResource c rid

/-- Observable events of one facade call: taking the `KBS_CLIENT` lock,
invoking `RealClient::new`, and invoking the backend `get_resource`. -/
inductive Event where
  | lockAcquire
  | construct
  | backendFetch
deriving DecidableEq, Repr

/-- Functional single-call semantics of `KbcClient::get_secret` (the
`Getter` impl): one call, run to completion while it holds the cell lock.
Input `cell` is the current contents of the shared `KBS_CLIENT` cell;
the result is the returned value, the cell contents after the call, and
the event log.  The `ann` argument is the `_annotations` parameter. -/
def KbcClient.get_secret {CC SEV OFS U B A : Type} (E : Env CC SEV OFS U B)
    (cell : Option (RealClient CC SEV OFS)) (name : String) (_ann : A) :
    Except Error B × Option (RealClient CC SEV OFS) × List Event :=
  match E.parseUri name with
  | none => (.error (.KbsClientError (invalidResourceUriMsg name)), cell, [])
  | some resource_uri =>
    match cell with
    | none =>
      match RealClient.new E with
      | .error e => (.error e, none, [.lockAcquire, .construct])
      | .ok c =>
        (RealClient.get_resource E c resource_uri, some c,
          [.lockAcquire, .construct, .backendFetch])
    | some c =>
      (RealClient.get_resource E c resource_uri, some c, [.lockAcquire, .backendFetch])

/-- Functional single-call semantics of `KbcClient::new`: take the lock,
initialize the cell if empty, return `Ok(KbcClient)` (a zero-state handle,
here `Unit`). -/
def KbcClient.new {CC SEV OFS U B : Type} (E : Env CC SEV OFS U B)
    (cell : Option (RealClient CC SEV OFS)) :
    Except Error Unit × Option (RealClient CC SEV OFS) × List Event :=
  match cell with
  | none =>
    match RealClient.new E with
    | .error e => (.error e, none, [.lockAcquire, .construct])
    | .ok c => (.ok (), some c, [.lockAcquire, .construct])
  | some c => (.ok (), some c, [.lockAcquire])

/-- String containment: `mentions sub m` holds when `sub` occurs
contiguously inside `m`. -/
def mentions (sub m : String) : Prop :=
  ∃ pre tail : List Char, m.data = pre ++ sub.data ++ tail

/-!
Small-step operational semantics for concurrent callers.

Each task runs either `KbcClient::get_secret` or `KbcClient::new`.  The
shared state is the `KBS_CLIENT` cell (`cell : Option C`) and its tokio
mutex (`lock : Option Nat`, the id of the holding task, if any).  A task
may only inspect or write the cell while it holds the lock; the lock is
acquired only when free and is released when the call returns (the
`MutexGuard` is dropped at scope end, also on the `?` early return).
Constructor and backend outcomes are environment nondeterminism: a
construction step may complete with any error or any client value, a
fetch step with any result.  Labels record constructor invocations
(`invoke`), their outcomes (`ok` / `err`), and everything else (`tau`).
-/

/-- Step labels: `invoke` marks entry into `RealClient::new`, `ok` / `err`
its successful / failed completion, `tau` every other step. -/
inductive Label where
  | invoke
  | ok
  | err
  | tau
deriving DecidableEq, Repr

/-- Control state of one task.  `gs*` phases belong to a `get_secret`
call, `nw*` phases to a `KbcClient::new` call.  `gsEnter` / `nwEnter` and
the later phases hold the lock. -/
inductive TaskState (C U B A : Type) where
  | gsStart (name : String) (ann : A)
  | gsWait (u : U)
  | gsEnter (u : U)
  | gsConstructing (u : U)
  | gsFetching (u : U)
  | gsDone (r : Except Error B)
  | nwStart
  | nwEnter
  | nwConstructing
  | nwDone (r : Except Error Unit)

/-- Global configuration: task pool (task id = list position), shared
cell, and the mutex holder. -/
structure Config (C U B A : Type) where
  tasks : List (TaskState C U B A)
  cell : Option C
  lock : Option Nat

/-- Phases during which a task holds the cell lock. -/
def holdsLock {C U B A : Type} : TaskState C U B A → Bool
  | .gsEnter _ | .gsConstructing _ | .gsFetching _ | .nwEnter | .nwConstructing => true
  | _ => false

/-- Phases during which a task is inside a `RealClient::new` invocation. -/
def isConstructing {C U B A : Type} : TaskState C U B A → Bool
  | .gsConstructing _ | .nwConstructing => true
  | _ => false

/-- Some task of the pool is inside a `RealClient::new` invocation. -/
def hasConstr {C U B A : Type} (tasks : List (TaskState C U B A)) : Prop :=
  ∃ t s, tasks.get? t = some s ∧ isConstructing s = true

/-- One interleaving step.  `parse` is the `ResourceUri::try_from`
oracle. -/
inductive Step {C U B A : Type} (parse : String → Option U) :
    Config C U B A → Label → Config C U B A → Prop where
  | parseFail (cfg : Config C U B A) (t : Nat) (name : String) (ann : A) :
      cfg.tasks.get? t = some (.gsStart name ann) →
      parse name = none →
      Step parse cfg .tau
        ⟨cfg.tasks.set t (.gsDone (.error (.KbsClientError (invalidResourceUriMsg name)))),
         cfg.cell, cfg.lock⟩
  | parseOk (cfg : Config C U B A) (t : Nat) (name : String) (ann : A) (u : U) :
      cfg.tasks.get? t = some (.gsStart name ann) →
      parse name = some u →
      Step parse cfg .tau ⟨cfg.tasks.set t (.gsWait u), cfg.cell, cfg.lock⟩
  | acquireGs (cfg : Config C U B A) (t : Nat) (u : U) :
      cfg.tasks.get? t = some (.gsWait u) →
      cfg.lock = none →
      Step parse cfg .tau ⟨cfg.tasks.set t (.gsEnter u), cfg.cell, some t⟩
  | invokeGs (cfg : Config C U B A) (t : Nat) (u : U) :
      cfg.tasks.get? t = some (.gsEnter u) →
      cfg.lock = some t →
      cfg.cell = none →
      Step parse cfg .invoke ⟨cfg.tasks.set t (.gsConstructing u), cfg.cell, cfg.lock⟩
  | skipConstructGs (cfg : Config C U B A) (t : Nat) (u : U) (c : C) :
      cfg.tasks.get? t = some (.gsEnter u) →
      cfg.lock = some t →
      cfg.cell = some c →
      Step parse cfg .tau ⟨cfg.tasks.set t (.gsFetching u), cfg.cell, cfg.lock⟩
  | constructErrGs (cfg : Config C U B A) (t : Nat) (u : U) (e : Error) :
      cfg.tasks.get? t = some (.gsConstructing u) →
      cfg.lock = some t →
      Step parse cfg .err ⟨cfg.tasks.set t (.gsDone (.error e)), cfg.cell, none⟩
  | constructOkGs (cfg : Config C U B A) (t : Nat) (u : U) (c : C) :
      cfg.tasks.get? t = some (.gsConstructing u) →
      cfg.lock = some t →
      Step parse cfg .ok ⟨cfg.tasks.set t (.gsFetching u), some c, cfg.lock⟩
  | fetchGs (cfg : Config C U B A) (t : Nat) (u : U) (c : C) (r : Except Error B) :
      cfg.tasks.get? t = some (.gsFetching u) →
      cfg.lock = some t →
      cfg.cell = some c →
      Step parse cfg .tau ⟨cfg.tasks.set t (.gsDone r), cfg.cell, none⟩
  | acquireNw (cfg : Config C U B A) (t : Nat) :
      cfg.tasks.get? t = some .nwStart →
      cfg.lock = none →
      Step parse cfg .tau ⟨cfg.tasks.set t .nwEnter, cfg.cell, some t⟩
  | invokeNw (cfg : Config C U B A) (t : Nat) :
      cfg.tasks.get? t = some .nwEnter →
      cfg.lock = some t →
      cfg.cell = none →
      Step parse cfg .invoke ⟨cfg.tasks.set t .nwConstructing, cfg.cell, cfg.lock⟩
  | skipConstructNw (cfg : Config C U B A) (t : Nat) (c : C) :
      cfg.tasks.get? t = some .nwEnter →
      cfg.lock = some t →
      cfg.cell = some c →
      Step parse cfg .tau ⟨cfg.tasks.set t (.nwDone (.ok ())), cfg.cell, none⟩
  | constructErrNw (cfg : Config C U B A) (t : Nat) (e : Error) :
      cfg.tasks.get? t = some .nwConstructing →
      cfg.lock = some t →
      Step parse cfg .err ⟨cfg.tasks.set t (.nwDone (.error e)), cfg.cell, none⟩
  | constructOkNw (cfg : Config C U B A) (t : Nat) (c : C) :
      cfg.tasks.get? t = some .nwConstructing →
      cfg.lock = some t →
      Step parse cfg .ok ⟨cfg.tasks.set t (.nwDone (.ok ())), some c, none⟩

/-- Finite interleaved executions, recording the label sequence. -/
inductive Trace {C U B A : Type} (parse : String → Option U) :
    Config C U B A → List Label → Config C U B A → Prop where
  | refl (cfg : Config C U B A) : Trace parse cfg [] cfg
  | step {c1 c2 c3 : Config C U B A} {l : Label} {ls : List Label} :
      Step parse c1 l c2 → Trace parse c2 ls c3 → Trace parse c1 (l :: ls) c3

/-- Number of `invoke` labels (entries into `RealClient::new`). -/
def countInvoke : List Label → Nat
  | [] => 0
  | l :: ls => (match l with | .invoke => 1 | _ => 0) + countInvoke ls

/-- Number of `err` labels (failed `RealClient::new` completions). -/
def countErr : List Label → Nat
  | [] => 0
  | l :: ls => (match l with | .err => 1 | _ => 0) + countErr ls

/-- Number of `ok` labels (successful `RealClient::new` completions). -/
def countOk : List Label → Nat
  | [] => 0
  | l :: ls => (match l with | .ok => 1 | _ => 0) + countOk ls

/-- A pending call: either `get_secret(name, ann)` or `KbcClient::new()`. -/
inductive Request (A : Type) where
  | getSecret (name : String) (ann : A)
  | mkNew

/-- Initial task state of a request. -/
def initTask {C U B A : Type} : Request A → TaskState C U B A
  | .getSecret name ann => .gsStart name ann
  | .mkNew => .nwStart

/-- Initial configuration: all calls pending, cell empty (the
`lazy_static` initializer `Mutex::new(None)`), lock free. -/
def initConfig {C U B A : Type} (reqs : List (Request A)) : Config C U B A :=
  ⟨reqs.map initTask, none, none⟩

/-- Inductive invariant of reachable configurations, indexed by the
numbers of `invoke`, `err`, `ok` events of the trace so far. -/
structure MachInv {C U B A : Type} (nI nE nO : Nat) (cfg : Config C U B A) : Prop where
  lockHeld : ∀ t s, cfg.tasks.get? t = some s → holdsLock s = true → cfg.lock = some t
  cellConstr : ∀ t s, cfg.tasks.get? t = some s → isConstructing s = true → cfg.cell = none
  okCell : nO = if cfg.cell.isSome then 1 else 0
  pend : hasConstr cfg.tasks → nI = nE + nO + 1
  nopend : ¬ hasConstr cfg.tasks → nI = nE + nO

/-!
Concrete environments used to instantiate the general theorems on the
scenarios of the spec (offline happy path, failing constructor, unknown
backend token in feature-poor and feature-rich builds).
-/

/-- Offline happy-path build: no optional features, a command line
selecting `offline_fs_kbc` with host `host1`, a constructor that
succeeds, and a backend returning the byte payload `42`. -/
def envOffline : Env Unit Unit Unit Unit Nat :=
  ⟨false, false, .ok "quiet agent.aa_kbc_params=offline_fs_kbc::host1 splash",
   fun _ => .ok (), fun _ => .ok (), .ok (),
   fun s => if s = "kbs:///default/credential/1" then some () else none,
   fun _ _ => .ok 0, fun _ _ => .ok 0, fun _ _ => .ok 42⟩

/-- Same build as `envOffline` but the offline backend constructor
fails. -/
def envCtorFail : Env Unit Unit Unit Unit Nat :=
  ⟨false, false, .ok "quiet agent.aa_kbc_params=offline_fs_kbc::host1 splash",
   fun _ => .ok (), fun _ => .ok (), .error (.BackendSpecific "ctor boom"),
   fun s => if s = "kbs:///default/credential/1" then some () else none,
   fun _ _ => .ok 0, fun _ _ => .ok 0, fun _ _ => .ok 42⟩

/-- Build with both optional features disabled and an unknown kind token
on the command line. -/
def envNoFeatures : Env Unit Unit Unit Unit Unit :=
  ⟨false, false, .ok "agent.aa_kbc_params=mystery_kbc::host",
   fun _ => .ok (), fun _ => .ok (), .ok (),
   fun _ => some (), fun _ _ => .ok (), fun _ _ => .ok (), fun _ _ => .ok ()⟩

/-- Build with both optional features enabled and the same unknown kind
token on the command line. -/
def envAllFeatures : Env Unit Unit Unit Unit Unit :=
  ⟨true, true, .ok "agent.aa_kbc_params=mystery_kbc::host",
   fun _ => .ok (), fun _ => .ok (), .ok (),
   fun _ => some (), fun _ _ => .ok (), fun _ _ => .ok (), fun _ _ => .ok ()⟩

/-!
Helper lemmas: list indexing under `set`, split lengths, label counts.
-/

theorem get?_some_lt {T : Type} {l : List T} {i : Nat} {a : T}
    (h : l.get? i = some a) : i < l.length := by
  induction l generalizing i with
  | nil => simp [List.get?] at h
  | cons x xs ih =>
    cases i with
    | zero => simp
    | succ j =>
      simp only [List.get?] at h
      have := ih h
      exact Nat.succ_lt_succ this

theorem get?_set_self {T : Type} (l : List T) (i : Nat) (a : T)
    (h : i < l.length) : (l.set i a).get? i = some a := by
  induction l generalizing i with
  | nil => simp at h
  | cons x xs ih =>
    cases i with
    | zero => rfl
    | succ j =>
      simp only [List.set, List.get?]
      exact ih j (by simpa using h)

theorem get?_set_ne {T : Type} (l : List T) (i j : Nat) (a : T)
    (h : j ≠ i) : (l.set i a).get? j = l.get? j := by
  induction l generalizing i j with
  | nil => simp
  | cons x xs ih =>
    cases i with
    | zero =>
      cases j with
      | zero => exact absurd rfl h
      | succ j2 => rfl
    | succ i2 =>
      cases j with
      | zero => rfl
      | succ j2 =>
        simp only [List.set, List.get?]
        exact ih i2 j2 (fun hc => h (by simp [hc]))

theorem get?_set_cases {T : Type} {l : List T} {i j : Nat} {a b : T}
    (hi : i < l.length) (hij : (l.set i a).get? j = some b) :
    (j = i ∧ b = a) ∨ (j ≠ i ∧ l.get? j = some b) := by
  by_cases h : j = i
  · subst h
    rw [get?_set_self l j a hi] at hij
    exact Or.inl ⟨rfl, (Option.some.injEq _ _ ▸ hij).symm⟩
  · rw [get?_set_ne l i j a h] at hij
    exact Or.inr ⟨h, hij⟩

theorem get?_map {S T : Type} (f : S → T) (l : List S) (i : Nat) :
    (l.map f).get? i = (l.get? i).map f := by
  induction l generalizing i with
  | nil => simp
  | cons x xs ih => cases i with
    | zero => rfl
    | succ j => exact ih j

theorem consHead_length (c : Char) (L : List (List Char)) (h : L ≠ []) :
    (consHead c L).length = L.length := by
  cases L with
  | nil => exact absurd rfl h
  | cons x xs => rfl

theorem consHead_ne_nil (c : Char) (L : List (List Char)) : consHead c L ≠ [] := by
  cases L <;> simp [consHead]

theorem splitColonColon_ne_nil (l : List Char) : splitColonColon l ≠ [] := by
  induction l using splitColonColon.induct with
  | case1 => simp [splitColonColon]
  | case2 c => simp [splitColonColon]
  | case3 c1 c2 rest hcc ih => simp [splitColonColon, hcc]
  | case4 c1 c2 rest hcc ih =>
    simp only [splitColonColon, hcc, Bool.false_eq_true, if_false]
    exact consHead_ne_nil c1 _

theorem splitColonColon_length (l : List Char) :
    (splitColonColon l).length = countColonColon l + 1 := by
  induction l using splitColonColon.induct with
  | case1 => rfl
  | case2 c => rfl
  | case3 c1 c2 rest hcc ih =>
    simp [splitColonColon, countColonColon, hcc, ih]
  | case4 c1 c2 rest hcc ih =>
    have hne : splitColonColon (c2 :: rest) ≠ [] := splitColonColon_ne_nil _
    simp only [splitColonColon, countColonColon, hcc, Bool.false_eq_true, if_false,
      consHead_length c1 _ hne, ih]

theorem constr_holds {C U B A : Type} {s : TaskState C U B A}
    (h : isConstructing s = true) : holdsLock s = true := by
  cases s <;> first | rfl | exact absurd h (by simp [isConstructing])

theorem initTask_not_holds {C U B A : Type} (r : Request A) :
    holdsLock (@initTask C U B A r) = false := by
  cases r <;> rfl

theorem initTask_not_constr {C U B A : Type} (r : Request A) :
    isConstructing (@initTask C U B A r) = false := by
  cases r <;> rfl

theorem initConfig_get? {C U B A : Type} (reqs : List (Request A)) (t : Nat)
    (s : TaskState C U B A) (h : (@initConfig C U B A reqs).tasks.get? t = some s) :
    ∃ r, reqs.get? t = some r ∧ s = initTask r := by
  have h2 : (reqs.map (@initTask C U B A)).get? t = some s := h
  rw [get?_map] at h2
  cases hr : reqs.get? t with
  | none => rw [hr] at h2; cases h2
  | some r =>
    rw [hr] at h2
    simp only [Option.map_some'] at h2
    exact ⟨r, rfl, (Option.some.injEq _ _ ▸ h2).symm⟩

/-- The initial configuration satisfies the machine invariant with all
event counts zero. -/
theorem machInv_init {C U B A : Type} (reqs : List (Request A)) :
    MachInv 0 0 0 (@initConfig C U B A reqs) := by
  refine ⟨?_, ?_, rfl, ?_, fun _ => rfl⟩
  · intro t s hget hh
    obtain ⟨r, _, rfl⟩ := initConfig_get? reqs t s hget
    rw [initTask_not_holds] at hh
    cases hh
  · intro t s hget hc
    obtain ⟨r, _, rfl⟩ := initConfig_get? reqs t s hget
    rw [initTask_not_constr] at hc
    cases hc
  · rintro ⟨t, s, hget, hc⟩
    obtain ⟨r, _, rfl⟩ := initConfig_get? reqs t s hget
    rw [initTask_not_constr] at hc
    cases hc

/-- If some task holds the lock and is not constructing, then no task is
inside `RealClient::new` (the lock serializes construction). -/
theorem no_constr_of_holder {C U B A : Type} {cfg : Config C U B A} {t : Nat}
    {sOld : TaskState C U B A}
    (hLock : ∀ t2 s, cfg.tasks.get? t2 = some s → holdsLock s = true → cfg.lock = some t2)
    (ht : cfg.tasks.get? t = some sOld) (hlk : cfg.lock = some t)
    (hnc : isConstructing sOld = false) : ¬ hasConstr cfg.tasks := by
  rintro ⟨t2, s2, hget2, hc2⟩
  have h2 := hLock t2 s2 hget2 (constr_holds hc2)
  rw [hlk] at h2
  injection h2 with h3
  subst h3
  rw [ht] at hget2
  injection hget2 with h4
  subst h4
  rw [hnc] at hc2
  cases hc2

/-- If the lock is free, no task is inside `RealClient::new`. -/
theorem no_constr_of_free {C U B A : Type} {cfg : Config C U B A}
    (hLock : ∀ t2 s, cfg.tasks.get? t2 = some s → holdsLock s = true → cfg.lock = some t2)
    (hfree : cfg.lock = none) : ¬ hasConstr cfg.tasks := by
  rintro ⟨t2, s2, hget2, hc2⟩
  have h2 := hLock t2 s2 hget2 (constr_holds hc2)
  rw [hfree] at h2
  cases h2

theorem hasConstr_set {C U B A : Type} {tasks : List (TaskState C U B A)} {t : Nat}
    {sNew : TaskState C U B A} (h : isConstructing sNew = true) (hlen : t < tasks.length) :
    hasConstr (tasks.set t sNew) :=
  ⟨t, sNew, get?_set_self _ _ _ (by simpa using hlen), h⟩

theorem hasConstr_set_elim {C U B A : Type} {tasks : List (TaskState C U B A)} {t : Nat}
    {sNew : TaskState C U B A} (hlen : t < tasks.length)
    (h : hasConstr (tasks.set t sNew)) (hnew : isConstructing sNew = false) :
    ∃ t2 s2, t2 ≠ t ∧ tasks.get? t2 = some s2 ∧ isConstructing s2 = true := by
  obtain ⟨t2, s2, hget2, hc2⟩ := h
  rcases get?_set_cases hlen hget2 with ⟨rfl, rfl⟩ | ⟨hne, hget⟩
  · rw [hnew] at hc2; cases hc2
  · exact ⟨t2, s2, hne, hget, hc2⟩

/-- If a task pool with one slot overwritten has no constructing task and
the overwritten slot was not constructing, the original pool has none
either. -/
theorem noPend_transfer {C U B A : Type} {tasks : List (TaskState C U B A)} {t : Nat}
    {sOld sNew : TaskState C U B A} (ht : tasks.get? t = some sOld)
    (hOldC : isConstructing sOld = false)
    (hnc : ¬ hasConstr (tasks.set t sNew)) : ¬ hasConstr tasks := by
  rintro ⟨t2, s2, hget2, hc2⟩
  by_cases he : t2 = t
  · subst he
    rw [ht] at hget2
    injection hget2 with h4
    subst h4
    rw [hOldC] at hc2
    cases hc2
  · exact hnc ⟨t2, s2, by rw [get?_set_ne _ _ _ _ he]; exact hget2, hc2⟩

/-- Invariant preservation for purely task-local steps: the updated slot
goes from a non-constructing state to one that neither holds the lock nor
constructs, and the shared cell and lock are untouched. -/
theorem machInv_local_step {C U B A : Type} {cfg : Config C U B A} {nI nE nO : Nat}
    (hinv : MachInv nI nE nO cfg) (t : Nat) (sOld sNew : TaskState C U B A)
    (ht : cfg.tasks.get? t = some sOld)
    (hOldC : isConstructing sOld = false)
    (hNewH : holdsLock sNew = false) (hNewC : isConstructing sNew = false) :
    MachInv nI nE nO ⟨cfg.tasks.set t sNew, cfg.cell, cfg.lock⟩ := by
  obtain ⟨hLock, hCellC, hOk, hPend, hNoPend⟩ := hinv
  have hlen : t < cfg.tasks.length := get?_some_lt ht
  refine ⟨?_, ?_, hOk, ?_, ?_⟩
  · intro t2 s2 hget2 hh2
    rcases get?_set_cases hlen hget2 with ⟨rfl, rfl⟩ | ⟨hne, hget⟩
    · rw [hNewH] at hh2; cases hh2
    · exact hLock t2 s2 hget hh2
  · intro t2 s2 hget2 hc2
    rcases get?_set_cases hlen hget2 with ⟨rfl, rfl⟩ | ⟨hne, hget⟩
    · rw [hNewC] at hc2; cases hc2
    · exact hCellC t2 s2 hget hc2
  · intro hhc
    obtain ⟨t2, s2, _, hget, hc⟩ := hasConstr_set_elim hlen hhc hNewC
    exact hPend ⟨t2, s2, hget, hc⟩
  · intro hnc
    exact hNoPend (noPend_transfer ht hOldC hnc)

/-- One-step preservation of the machine invariant, with the label's
contribution added to the event counts. -/
theorem machInv_step {C U B A : Type} {parse : String → Option U}
    {cfg cfg2 : Config C U B A} {l : Label} {nI nE nO : Nat}
    (hinv : MachInv nI nE nO cfg) (hstep : Step parse cfg l cfg2) :
    MachInv (nI + countInvoke [l]) (nE + countErr [l]) (nO + countOk [l]) cfg2 := by
  cases hstep with
  | parseFail t name ann ht hp =>
    exact machInv_local_step hinv t _ _ ht rfl rfl rfl
  | parseOk t name ann u ht hp =>
    exact machInv_local_step hinv t _ _ ht rfl rfl rfl
  | acquireGs t u ht hfree =>
    obtain ⟨hLock, hCellC, hOk, hPend, hNoPend⟩ := hinv
    have hlen : t < cfg.tasks.length := get?_some_lt ht
    refine ⟨?_, ?_, hOk, ?_, ?_⟩
    · intro t2 s2 hget2 hh2
      rcases get?_set_cases hlen hget2 with ⟨rfl, rfl⟩ | ⟨hne, hget⟩
      · rfl
      · have h2 := hLock t2 s2 hget hh2
        rw [hfree] at h2
        cases h2
    · intro t2 s2 hget2 hc2
      rcases get?_set_cases hlen hget2 with ⟨rfl, rfl⟩ | ⟨hne, hget⟩
      · rw [show isConstructing (TaskState.gsEnter u : TaskState C U B A) = false from rfl] at hc2
        cases hc2
      · exact hCellC t2 s2 hget hc2
    · intro hhc
      obtain ⟨t2, s2, _, hget, hc⟩ := hasConstr_set_elim hlen hhc rfl
      exact absurd ⟨t2, s2, hget, hc⟩ (no_constr_of_free hLock hfree)
    · intro _
      exact hNoPend (no_constr_of_free hLock hfree)
  | invokeGs t u ht hlk hcell =>
    obtain ⟨hLock, hCellC, hOk, hPend, hNoPend⟩ := hinv
    have hlen : t < cfg.tasks.length := get?_some_lt ht
    refine ⟨?_, ?_, hOk, ?_, ?_⟩
    · intro t2 s2 hget2 hh2
      rcases get?_set_cases hlen hget2 with ⟨rfl, rfl⟩ | ⟨hne, hget⟩
      · exact hlk
      · exact hLock t2 s2 hget hh2
    · intro t2 s2 _ _
      exact hcell
    · intro _
      have h1 := hNoPend (no_constr_of_holder hLock ht hlk rfl)
      show nI + 1 = nE + nO + 1
      omega
    · intro hn
      exact (hn (hasConstr_set rfl hlen)).elim
  | skipConstructGs t u c ht hlk hcell =>
    obtain ⟨hLock, hCellC, hOk, hPend, hNoPend⟩ := hinv
    have hlen : t < cfg.tasks.length := get?_some_lt ht
    refine ⟨?_, ?_, hOk, ?_, ?_⟩
    · intro t2 s2 hget2 hh2
      rcases get?_set_cases hlen hget2 with ⟨rfl, rfl⟩ | ⟨hne, hget⟩
      · exact hlk
      · exact hLock t2 s2 hget hh2
    · intro t2 s2 hget2 hc2
      rcases get?_set_cases hlen hget2 with ⟨rfl, rfl⟩ | ⟨hne, hget⟩
      · rw [show isConstructing (TaskState.gsFetching u : TaskState C U B A) = false from rfl] at hc2
        cases hc2
      · exact hCellC t2 s2 hget hc2
    · intro hhc
      obtain ⟨t2, s2, _, hget, hc⟩ := hasConstr_set_elim hlen hhc rfl
      exact hPend ⟨t2, s2, hget, hc⟩
    · intro hnc
      exact hNoPend (noPend_transfer ht rfl hnc)
  | constructErrGs t u e ht hlk =>
    obtain ⟨hLock, hCellC, hOk, hPend, hNoPend⟩ := hinv
    have hlen : t < cfg.tasks.length := get?_some_lt ht
    refine ⟨?_, ?_, hOk, ?_, ?_⟩
    · intro t2 s2 hget2 hh2
      rcases get?_set_cases hlen hget2 with ⟨rfl, rfl⟩ | ⟨hne, hget⟩
      · rw [show holdsLock (TaskState.gsDone (Except.error e) : TaskState C U B A) = false
            from rfl] at hh2
        cases hh2
      · have h2 := hLock t2 s2 hget hh2
        rw [hlk] at h2
        injection h2 with h3
        exact absurd h3.symm hne
    · intro t2 s2 hget2 hc2
      rcases get?_set_cases hlen hget2 with ⟨rfl, rfl⟩ | ⟨hne, hget⟩
      · rw [show isConstructing (TaskState.gsDone (Except.error e) : TaskState C U B A) = false
            from rfl] at hc2
        cases hc2
      · exact hCellC t2 s2 hget hc2
    · intro hhc
      obtain ⟨t2, s2, hne, hget, hc⟩ := hasConstr_set_elim hlen hhc rfl
      have h2 := hLock t2 _ hget (constr_holds hc)
      rw [hlk] at h2
      injection h2 with h3
      exact absurd h3.symm hne
    · intro _
      have h1 := hPend ⟨t, _, ht, rfl⟩
      show nI = nE + 1 + nO
      omega
  | constructOkGs t u c ht hlk =>
    obtain ⟨hLock, hCellC, hOk, hPend, hNoPend⟩ := hinv
    have hlen : t < cfg.tasks.length := get?_some_lt ht
    have hcell : cfg.cell = none := hCellC t _ ht rfl
    refine ⟨?_, ?_, ?_, ?_, ?_⟩
    · intro t2 s2 hget2 hh2
      rcases get?_set_cases hlen hget2 with ⟨rfl, rfl⟩ | ⟨hne, hget⟩
      · exact hlk
      · exact hLock t2 s2 hget hh2
    · intro t2 s2 hget2 hc2
      rcases get?_set_cases hlen hget2 with ⟨rfl, rfl⟩ | ⟨hne, hget⟩
      · rw [show isConstructing (TaskState.gsFetching u : TaskState C U B A) = false
            from rfl] at hc2
        cases hc2
      · have h2 := hLock t2 s2 hget (constr_holds hc2)
        rw [hlk] at h2
        injection h2 with h3
        exact absurd h3.symm hne
    · have h1 := hOk
      rw [hcell] at h1
      show nO + 1 = 1
      simp only [Option.isSome_none, Bool.false_eq_true, if_false] at h1
      omega
    · intro hhc
      obtain ⟨t2, s2, hne, hget, hc⟩ := hasConstr_set_elim hlen hhc rfl
      have h2 := hLock t2 _ hget (constr_holds hc)
      rw [hlk] at h2
      injection h2 with h3
      exact absurd h3.symm hne
    · intro _
      have h1 := hPend ⟨t, _, ht, rfl⟩
      have h2 := hOk
      rw [hcell] at h2
      simp only [Option.isSome_none, Bool.false_eq_true, if_false] at h2
      show nI = nE + (nO + 1)
      omega
  | fetchGs t u c r ht hlk hcell =>
    obtain ⟨hLock, hCellC, hOk, hPend, hNoPend⟩ := hinv
    have hlen : t < cfg.tasks.length := get?_some_lt ht
    refine ⟨?_, ?_, hOk, ?_, ?_⟩
    · intro t2 s2 hget2 hh2
      rcases get?_set_cases hlen hget2 with ⟨rfl, rfl⟩ | ⟨hne, hget⟩
      · rw [show holdsLock (TaskState.gsDone r : TaskState C U B A) = false from rfl] at hh2
        cases hh2
      · have h2 := hLock t2 s2 hget hh2
        rw [hlk] at h2
        injection h2 with h3
        exact absurd h3.symm hne
    · intro t2 s2 hget2 hc2
      rcases get?_set_cases hlen hget2 with ⟨rfl, rfl⟩ | ⟨hne, hget⟩
      · rw [show isConstructing (TaskState.gsDone r : TaskState C U B A) = false from rfl] at hc2
        cases hc2
      · exact hCellC t2 s2 hget hc2
    · intro hhc
      obtain ⟨t2, s2, _, hget, hc⟩ := hasConstr_set_elim hlen hhc rfl
      exact hPend ⟨t2, s2, hget, hc⟩
    · intro hnc
      exact hNoPend (noPend_transfer ht rfl hnc)
  | acquireNw t ht hfree =>
    obtain ⟨hLock, hCellC, hOk, hPend, hNoPend⟩ := hinv
    have hlen : t < cfg.tasks.length := get?_some_lt ht
    refine ⟨?_, ?_, hOk, ?_, ?_⟩
    · intro t2 s2 hget2 hh2
      rcases get?_set_cases hlen hget2 with ⟨rfl, rfl⟩ | ⟨hne, hget⟩
      · rfl
      · have h2 := hLock t2 s2 hget hh2
        rw [hfree] at h2
        cases h2
    · intro t2 s2 hget2 hc2
      rcases get?_set_cases hlen hget2 with ⟨rfl, rfl⟩ | ⟨hne, hget⟩
      · rw [show isConstructing (TaskState.nwEnter : TaskState C U B A) = false from rfl] at hc2
        cases hc2
      · exact hCellC t2 s2 hget hc2
    · intro hhc
      obtain ⟨t2, s2, _, hget, hc⟩ := hasConstr_set_elim hlen hhc rfl
      exact absurd ⟨t2, s2, hget, hc⟩ (no_constr_of_free hLock hfree)
    · intro _
      exact hNoPend (no_constr_of_free hLock hfree)
  | invokeNw t ht hlk hcell =>
    obtain ⟨hLock, hCellC, hOk, hPend, hNoPend⟩ := hinv
    have hlen : t < cfg.tasks.length := get?_some_lt ht
    refine ⟨?_, ?_, hOk, ?_, ?_⟩
    · intro t2 s2 hget2 hh2
      rcases get?_set_cases hlen hget2 with ⟨rfl, rfl⟩ | ⟨hne, hget⟩
      · exact hlk
      · exact hLock t2 s2 hget hh2
    · intro t2 s2 _ _
      exact hcell
    · intro _
      have h1 := hNoPend (no_constr_of_holder hLock ht hlk rfl)
      show nI + 1 = nE + nO + 1
      omega
    · intro hn
      exact (hn (hasConstr_set rfl hlen)).elim
  | skipConstructNw t c ht hlk hcell =>
    obtain ⟨hLock, hCellC, hOk, hPend, hNoPend⟩ := hinv
    have hlen : t < cfg.tasks.length := get?_some_lt ht
    refine ⟨?_, ?_, hOk, ?_, ?_⟩
    · intro t2 s2 hget2 hh2
      rcases get?_set_cases hlen hget2 with ⟨rfl, rfl⟩ | ⟨hne, hget⟩
      · rw [show holdsLock (TaskState.nwDone (Except.ok ()) : TaskState C U B A) = false
            from rfl] at hh2
        cases hh2
      · have h2 := hLock t2 s2 hget hh2
        rw [hlk] at h2
        injection h2 with h3
        exact absurd h3.symm hne
    · intro t2 s2 hget2 hc2
      rcases get?_set_cases hlen hget2 with ⟨rfl, rfl⟩ | ⟨hne, hget⟩
      · rw [show isConstructing (TaskState.nwDone (Except.ok ()) : TaskState C U B A) = false
            from rfl] at hc2
        cases hc2
      · exact hCellC t2 s2 hget hc2
    · intro hhc
      obtain ⟨t2, s2, _, hget, hc⟩ := hasConstr_set_elim hlen hhc rfl
      exact hPend ⟨t2, s2, hget, hc⟩
    · intro hnc
      exact hNoPend (noPend_transfer ht rfl hnc)
  | constructErrNw t e ht hlk =>
    obtain ⟨hLock, hCellC, hOk, hPend, hNoPend⟩ := hinv
    have hlen : t < cfg.tasks.length := get?_some_lt ht
    refine ⟨?_, ?_, hOk, ?_, ?_⟩
    · intro t2 s2 hget2 hh2
      rcases get?_set_cases hlen hget2 with ⟨rfl, rfl⟩ | ⟨hne, hget⟩
      · rw [show holdsLock (TaskState.nwDone (Except.error e) : TaskState C U B A) = false
            from rfl] at hh2
        cases hh2
      · have h2 := hLock t2 s2 hget hh2
        rw [hlk] at h2
        injection h2 with h3
        exact absurd h3.symm hne
    · intro t2 s2 hget2 hc2
      rcases get?_set_cases hlen hget2 with ⟨rfl, rfl⟩ | ⟨hne, hget⟩
      · rw [show isConstructing (TaskState.nwDone (Except.error e) : TaskState C U B A) = false
            from rfl] at hc2
        cases hc2
      · exact hCellC t2 s2 hget hc2
    · intro hhc
      obtain ⟨t2, s2, hne, hget, hc⟩ := hasConstr_set_elim hlen hhc rfl
      have h2 := hLock t2 _ hget (constr_holds hc)
      rw [hlk] at h2
      injection h2 with h3
      exact absurd h3.symm hne
    · intro _
      have h1 := hPend ⟨t, _, ht, rfl⟩
      show nI = nE + 1 + nO
      omega
  | constructOkNw t c ht hlk =>
    obtain ⟨hLock, hCellC, hOk, hPend, hNoPend⟩ := hinv
    have hlen : t < cfg.tasks.length := get?_some_lt ht
    have hcell : cfg.cell = none := hCellC t _ ht rfl
    refine ⟨?_, ?_, ?_, ?_, ?_⟩
    · intro t2 s2 hget2 hh2
      rcases get?_set_cases hlen hget2 with ⟨rfl, rfl⟩ | ⟨hne, hget⟩
      · rw [show holdsLock (TaskState.nwDone (Except.ok ()) : TaskState C U B A) = false
            from rfl] at hh2
        cases hh2
      · have h2 := hLock t2 s2 hget hh2
        rw [hlk] at h2
        injection h2 with h3
        exact absurd h3.symm hne
    · intro t2 s2 hget2 hc2
      rcases get?_set_cases hlen hget2 with ⟨rfl, rfl⟩ | ⟨hne, hget⟩
      · rw [show isConstructing (TaskState.nwDone (Except.ok ()) : TaskState C U B A) = false
            from rfl] at hc2
        cases hc2
      · have h2 := hLock t2 s2 hget (constr_holds hc2)
        rw [hlk] at h2
        injection h2 with h3
        exact absurd h3.symm hne
    · have h1 := hOk
      rw [hcell] at h1
      show nO + 1 = 1
      simp only [Option.isSome_none, Bool.false_eq_true, if_false] at h1
      omega
    · intro hhc
      obtain ⟨t2, s2, hne, hget, hc⟩ := hasConstr_set_elim hlen hhc rfl
      have h2 := hLock t2 _ hget (constr_holds hc)
      rw [hlk] at h2
      injection h2 with h3
      exact absurd h3.symm hne
    · intro _
      have h1 := hPend ⟨t, _, ht, rfl⟩
      have h2 := hOk
      rw [hcell] at h2
      simp only [Option.isSome_none, Bool.false_eq_true, if_false] at h2
      show nI = nE + (nO + 1)
      omega

theorem machInv_cast {C U B A : Type} {cfg : Config C U B A} {a b c a2 b2 c2 : Nat}
    (h : MachInv a b c cfg) (h1 : a = a2) (h2 : b = b2) (h3 : c = c2) :
    MachInv a2 b2 c2 cfg := by
  subst h1; subst h2; subst h3; exact h

/-- The machine invariant propagates along any trace, accumulating the
label counts. -/
theorem machInv_trace {C U B A : Type} {parse : String → Option U}
    {cfg cfg2 : Config C U B A} {tr : List Label}
    (htr : Trace parse cfg tr cfg2) :
    ∀ nI nE nO, MachInv nI nE nO cfg →
      MachInv (nI + countInvoke tr) (nE + countErr tr) (nO + countOk tr) cfg2 := by
  induction htr with
  | refl cfg => exact fun _ _ _ h => h
  | step hstep htr2 ih =>
    rename_i c1 c2 c3 l ls
    intro nI nE nO h
    have h2 := ih _ _ _ (machInv_step h hstep)
    refine machInv_cast h2 ?_ ?_ ?_
    · rw [show countInvoke (l :: ls) = countInvoke [l] + countInvoke ls from rfl]
      omega
    · rw [show countErr (l :: ls) = countErr [l] + countErr ls from rfl]
      omega
    · rw [show countOk (l :: ls) = countOk [l] + countOk ls from rfl]
      omega

/-- The machine invariant at a configuration reachable from the initial
one, with the absolute event counts of the trace. -/
theorem machInv_reach {C U B A : Type} {parse : String → Option U}
    {reqs : List (Request A)} {cfg2 : Config C U B A} {tr : List Label}
    (htr : Trace parse (@initConfig C U B A reqs) tr cfg2) :
    MachInv (countInvoke tr) (countErr tr) (countOk tr) cfg2 := by
  have h := machInv_trace htr 0 0 0 (machInv_init reqs)
  exact machInv_cast h (Nat.zero_add _) (Nat.zero_add _) (Nat.zero_add _)

/-- Any trace splits at a position into a prefix trace and a suffix
trace through an intermediate configuration. -/
theorem trace_split {C U B A : Type} {parse : String → Option U}
    {cfg cfg2 : Config C U B A} {tr : List Label}
    (htr : Trace parse cfg tr cfg2) (j : Nat) :
    ∃ cmid, Trace parse cfg (tr.take j) cmid ∧ Trace parse cmid (tr.drop j) cfg2 := by
  induction htr generalizing j with
  | refl cfg =>
    refine ⟨cfg, ?_, ?_⟩
    · rw [List.take_nil]; exact Trace.refl cfg
    · rw [List.drop_nil]; exact Trace.refl cfg
  | step hstep htr2 ih =>
    cases j with
    | zero => exact ⟨_, Trace.refl _, Trace.step hstep htr2⟩
    | succ j2 =>
      obtain ⟨cmid, h1, h2⟩ := ih j2
      exact ⟨cmid, Trace.step hstep h1, h2⟩

theorem get?_drop_cons {T : Type} {tr : List T} {j : Nat} {l : T}
    (h : tr.get? j = some l) : tr.drop j = l :: tr.drop (j + 1) := by
  induction tr generalizing j with
  | nil => cases h
  | cons x xs ih =>
    cases j with
    | zero =>
      injection h with h2
      subst h2
      rfl
    | succ j2 => exact ih h

/-- A populated cell is never cleared or replaced by a single step taken
from a configuration satisfying the invariant. -/
theorem cell_preserved_step {C U B A : Type} {parse : String → Option U}
    {cfg cfg2 : Config C U B A} {l : Label} {nI nE nO : Nat} {x : C}
    (hinv : MachInv nI nE nO cfg) (hstep : Step parse cfg l cfg2)
    (hx : cfg.cell = some x) : cfg2.cell = some x := by
  cases hstep with
  | constructOkGs t u c ht hlk =>
    have h2 := hinv.cellConstr t _ ht rfl
    rw [hx] at h2
    cases h2
  | constructOkNw t c ht hlk =>
    have h2 := hinv.cellConstr t _ ht rfl
    rw [hx] at h2
    cases h2
  | _ => exact hx

/-- A populated cell is never cleared or replaced along any trace from an
invariant configuration. -/
theorem cell_preserved_trace {C U B A : Type} {parse : String → Option U}
    {cfg cfg2 : Config C U B A} {tr : List Label} {x : C}
    (htr : Trace parse cfg tr cfg2) :
    ∀ nI nE nO, MachInv nI nE nO cfg → cfg.cell = some x → cfg2.cell = some x := by
  induction htr with
  | refl cfg => exact fun _ _ _ _ h => h
  | step hstep htr2 ih =>
    intro nI nE nO hinv hx
    exact ih _ _ _ (machInv_step hinv hstep) (cell_preserved_step hinv hstep hx)

/-!
Characterization of the boot-parameter reader.
-/

theorem reader_boot_err (e : String) :
    get_aa_params_from_cmdline (.error e) =
      .error (.KbsClientError (bootReadErrorMsg e)) := rfl

theorem reader_missing {s : String} (h : firstParamToken s = none) :
    get_aa_params_from_cmdline (.ok s) = .error (.KbsClientError missingParameterMsg) := by
  unfold get_aa_params_from_cmdline
  simp only [h]

theorem reader_pair {L : List (List Char)} {k h : List Char} (hL : L = [k, h]) :
    (if hlen : L.length = 2 then
       (Except.ok (String.mk (L.get ⟨0, by omega⟩), String.mk (L.get ⟨1, by omega⟩)) :
         Except Error (String × String))
     else .error (.KbsClientError malformedParameterMsg)) = .ok (⟨k⟩, ⟨h⟩) := by
  subst hL
  rfl

theorem reader_ok {s : String} {tok k h : List Char}
    (h1 : firstParamToken s = some tok)
    (h2 : splitColonColon (tok.drop aaParamsKey.length) = [k, h]) :
    get_aa_params_from_cmdline (.ok s) = .ok (String.mk k, String.mk h) := by
  unfold get_aa_params_from_cmdline
  simp only [h1]
  exact reader_pair h2

theorem reader_malformed {s : String} {tok : List Char}
    (h1 : firstParamToken s = some tok)
    (h2 : (splitColonColon (tok.drop aaParamsKey.length)).length ≠ 2) :
    get_aa_params_from_cmdline (.ok s) =
      .error (.KbsClientError malformedParameterMsg) := by
  unfold get_aa_params_from_cmdline
  simp only [h1]
  rw [dif_neg h2]

/-- Claim C3: the boot-parameter reader splits the command line on ASCII
whitespace, takes the first token with literal key `agent.aa_kbc_params=`,
strips the key and splits the remainder on the literal separator `::`; it
returns the pair exactly when the split yields exactly two parts; a failed
file read yields the boot-read error, no keyed token yields the
missing-parameter error, and a split of any other arity yields the
malformed-parameter error. -/
theorem c3_boot_reader_correct :
    (∀ e : String, get_aa_params_from_cmdline (.error e) =
      .error (.KbsClientError (bootReadErrorMsg e))) ∧
    (∀ s : String, firstParamToken s = none →
      get_aa_params_from_cmdline (.ok s) =
        .error (.KbsClientError missingParameterMsg)) ∧
    (∀ (s : String) (tok k h : List Char), firstParamToken s = some tok →
      splitColonColon (tok.drop aaParamsKey.length) = [k, h] →
      get_aa_params_from_cmdline (.ok s) = .ok (String.mk k, String.mk h)) ∧
    (∀ (s : String) (tok : List Char), firstParamToken s = some tok →
      (splitColonColon (tok.drop aaParamsKey.length)).length ≠ 2 →
      get_aa_params_from_cmdline (.ok s) =
        .error (.KbsClientError malformedParameterMsg)) :=
  ⟨reader_boot_err,
   fun _ h => reader_missing h,
   fun _ _ _ _ h1 h2 => reader_ok h1 h2,
   fun _ _ h1 h2 => reader_malformed h1 h2⟩

/-- Claim C3, concrete instances: a command line with no keyed token, the
offline happy-path line, a single-colon malformed line, and a failed read. -/
theorem c3_boot_reader_correct_witness :
    get_aa_params_from_cmdline (.ok "ro console=ttyS0") =
      .error (.KbsClientError missingParameterMsg) ∧
    get_aa_params_from_cmdline
      (.ok "quiet agent.aa_kbc_params=offline_fs_kbc::host1 splash") =
      .ok ("offline_fs_kbc", "host1") ∧
    get_aa_params_from_cmdline (.ok "agent.aa_kbc_params=cc_kbc:host") =
      .error (.KbsClientError malformedParameterMsg) ∧
    get_aa_params_from_cmdline (.error "io trouble") =
      .error (.KbsClientError (bootReadErrorMsg "io trouble")) := by
  refine ⟨?_, ?_, ?_, c3_boot_reader_correct.1 "io trouble"⟩
  · exact c3_boot_reader_correct.2.1 "ro console=ttyS0" (by rfl)
  · exact c3_boot_reader_correct.2.2.1 "quiet agent.aa_kbc_params=offline_fs_kbc::host1 splash"
      "agent.aa_kbc_params=offline_fs_kbc::host1".data
      "offline_fs_kbc".data "host1".data (by rfl) (by rfl)
  · exact c3_boot_reader_correct.2.2.2 "agent.aa_kbc_params=cc_kbc:host"
      "agent.aa_kbc_params=cc_kbc:host".data (by rfl) (by decide)

/-- Claim C10: a keyed value with two or more (leftmost, non-overlapping)
occurrences of the separator `::` — for example a host argument that
itself contains `::` — splits into more than two parts, so the reader
fails with the malformed-parameter error: the host argument is not fully
opaque. -/
theorem c10_host_cannot_contain_separator (s : String) (tok : List Char)
    (hfind : firstParamToken s = some tok)
    (hcc : 2 ≤ countColonColon (tok.drop aaParamsKey.length)) :
    get_aa_params_from_cmdline (.ok s) =
      .error (.KbsClientError malformedParameterMsg) := by
  refine reader_malformed hfind ?_
  rw [splitColonColon_length]
  omega

/-- Claim C10, concrete instance: host `h1::h2` containing the separator. -/
theorem c10_host_cannot_contain_separator_witness :
    2 ≤ countColonColon ("agent.aa_kbc_params=cc_kbc::h1::h2".data.drop aaParamsKey.length) ∧
    get_aa_params_from_cmdline (.ok "agent.aa_kbc_params=cc_kbc::h1::h2") =
      .error (.KbsClientError malformedParameterMsg) :=
  ⟨by decide,
   c10_host_cannot_contain_separator "agent.aa_kbc_params=cc_kbc::h1::h2"
     "agent.aa_kbc_params=cc_kbc::h1::h2".data (by rfl) (by decide)⟩

/-!
Characterization of the backend registry.
-/

theorem realClient_new_unknown {CC SEV OFS U B : Type} (E : Env CC SEV OFS U B)
    (k v : String) (hr : get_aa_params_from_cmdline E.cmdline = .ok (k, v))
    (hav : availableToken E.kbs E.sev k = false) :
    RealClient.new E = .error (.KbsClientError (unknownBackendMsg k)) := by
  have hav2 := hav
  simp only [availableToken, Bool.or_eq_false_iff] at hav2
  obtain ⟨⟨h1, h2⟩, h3⟩ := hav2
  unfold RealClient.new
  simp only [hr, h1, h2, h3, Bool.false_eq_true, if_false]

theorem unknownBackendMsg_mentions_all (k : String) :
    mentions "cc_kbc" (unknownBackendMsg k) ∧
    mentions "online_sev_kbc" (unknownBackendMsg k) ∧
    mentions "offline_fs_kbc" (unknownBackendMsg k) := by
  refine ⟨⟨"unknown kbc name ".data ++ k.data ++ ", only support `".data,
      "`(feature `kbs`), `online_sev_kbc` (feature `sev`) and `offline_fs_kbc`.".data, ?_⟩,
    ⟨"unknown kbc name ".data ++ k.data ++
        ", only support `cc_kbc`(feature `kbs`), `".data,
      "` (feature `sev`) and `offline_fs_kbc`.".data, ?_⟩,
    ⟨"unknown kbc name ".data ++ k.data ++
        ", only support `cc_kbc`(feature `kbs`), `online_sev_kbc` (feature `sev`) and `".data,
      "`.".data, ?_⟩⟩ <;>
    (unfold unknownBackendMsg
     rw [String.data_append, String.data_append]
     simp only [List.append_assoc]
     exact congrArg (fun t => "unknown kbc name ".data ++ (k.data ++ t)) (by decide))

/-- Claim C4: the registry matches the kind token case-sensitively and
exactly: `cc_kbc` (when compiled in) constructs the networked
confidential backend from the host argument, `online_sev_kbc` (when
compiled in) constructs the SEV backend from the host argument,
`offline_fs_kbc` constructs the offline filesystem backend discarding the
host argument, and any other token fails with the unknown-backend error
without invoking any backend constructor (the result is independent of
all constructor oracles). -/
theorem c4_registry_mapping {CC SEV OFS U B : Type} (E : Env CC SEV OFS U B)
    (k v : String) (hr : get_aa_params_from_cmdline E.cmdline = .ok (k, v)) :
    (E.kbs = true → k = "cc_kbc" →
      RealClient.new E = Except.map RealClient.Cc (E.ccNew v)) ∧
    (E.sev = true → k = "online_sev_kbc" →
      RealClient.new E = Except.map RealClient.Sev (E.sevNew v)) ∧
    (k = "offline_fs_kbc" →
      RealClient.new E = Except.map RealClient.OfflineFs E.offlineFsNew) ∧
    (availableToken E.kbs E.sev k = false →
      RealClient.new E = .error (.KbsClientError (unknownBackendMsg k)) ∧
      ∀ E2 : Env CC SEV OFS U B, E2.cmdline = E.cmdline → E2.kbs = E.kbs →
        E2.sev = E.sev → RealClient.new E2 = RealClient.new E) := by
  refine ⟨?_, ?_, ?_, ?_⟩
  · intro hkbs hk
    subst hk
    unfold RealClient.new
    simp only [hr, hkbs]
    simp only [show (("cc_kbc" == "cc_kbc") : Bool) = true from rfl, Bool.and_self,
      if_true]
    cases E.ccNew v <;> rfl
  · intro hsev hk
    subst hk
    unfold RealClient.new
    simp only [hr, hsev]
    simp only [show (("online_sev_kbc" == "cc_kbc") : Bool) = false from rfl,
      show (("online_sev_kbc" == "online_sev_kbc") : Bool) = true from rfl,
      Bool.and_false, Bool.and_self, Bool.false_eq_true, if_false, if_true]
    cases E.sevNew v <;> rfl
  · intro hk
    subst hk
    unfold RealClient.new
    simp only [hr,
      show (("offline_fs_kbc" == "cc_kbc") : Bool) = false from rfl,
      show (("offline_fs_kbc" == "online_sev_kbc") : Bool) = false from rfl,
      show (("offline_fs_kbc" == "offline_fs_kbc") : Bool) = true from rfl,
      Bool.and_false, Bool.false_eq_true, if_false, if_true]
    cases E.offlineFsNew <;> rfl
  · intro hav
    refine ⟨realClient_new_unknown E k v hr hav, ?_⟩
    intro E2 hc hk2 hs2
    rw [realClient_new_unknown E k v hr hav,
      realClient_new_unknown E2 k v (by rw [hc]; exact hr) (by rw [hk2, hs2]; exact hav)]

/-- Claim C4, concrete instances: the offline token constructs the
offline filesystem backend, and an unknown token in a feature-poor build
produces the same unknown-backend error under any constructor oracles. -/
theorem c4_registry_mapping_witness :
    RealClient.new envOffline = Except.map RealClient.OfflineFs envOffline.offlineFsNew ∧
    RealClient.new envNoFeatures =
      .error (.KbsClientError (unknownBackendMsg "mystery_kbc")) :=
  ⟨(c4_registry_mapping envOffline "offline_fs_kbc" "host1" (by rfl)).2.2.1 rfl,
   ((c4_registry_mapping envNoFeatures "mystery_kbc" "host" (by rfl)).2.2.2
     (by rfl)).1⟩

/-- Claim C8 counterexample: in a build with both optional features
disabled, the unknown-backend failure message still mentions `cc_kbc`
(which is not compiled into that build), and it is the very same message
produced in a build with all features enabled — so the message does not
enumerate exactly the backends available in the particular build, and
its content does not reflect which compile-time features are enabled. -/
theorem c8_counterexample :
    RealClient.new envNoFeatures =
      .error (.KbsClientError (unknownBackendMsg "mystery_kbc")) ∧
    RealClient.new envAllFeatures =
      .error (.KbsClientError (unknownBackendMsg "mystery_kbc")) ∧
    mentions "cc_kbc" (unknownBackendMsg "mystery_kbc") ∧
    availableToken envNoFeatures.kbs envNoFeatures.sev "cc_kbc" = false ∧
    envNoFeatures.kbs = false ∧ envAllFeatures.kbs = true := by
  refine ⟨by rfl, by rfl, (unknownBackendMsg_mentions_all "mystery_kbc").1, by rfl, rfl, rfl⟩

/-- Claim C8 (amended): whenever the kind token does not select a
compiled-in backend, the registry fails with the unknown-backend error
whose message is a fixed string naming the unknown token and enumerating
all three supported backend tokens together with the features that gate
them — the same message in every build, regardless of which compile-time
features are enabled. -/
theorem c8_amended_unknown_backend_message {CC SEV OFS U B : Type}
    (E : Env CC SEV OFS U B) (k v : String)
    (hr : get_aa_params_from_cmdline E.cmdline = .ok (k, v))
    (hav : availableToken E.kbs E.sev k = false) :
    RealClient.new E = .error (.KbsClientError (unknownBackendMsg k)) ∧
    mentions "cc_kbc" (unknownBackendMsg k) ∧
    mentions "online_sev_kbc" (unknownBackendMsg k) ∧
    mentions "offline_fs_kbc" (unknownBackendMsg k) :=
  ⟨realClient_new_unknown E k v hr hav, unknownBackendMsg_mentions_all k⟩

/-- Claim C8 (amended), concrete instance. -/
theorem c8_amended_unknown_backend_message_witness :
    RealClient.new envNoFeatures =
      .error (.KbsClientError (unknownBackendMsg "mystery_kbc")) ∧
    mentions "offline_fs_kbc" (unknownBackendMsg "mystery_kbc") :=
  ⟨(c8_amended_unknown_backend_message envNoFeatures "mystery_kbc" "host"
      (by rfl) (by rfl)).1,
   (c8_amended_unknown_backend_message envNoFeatures "mystery_kbc" "host"
      (by rfl) (by rfl)).2.2.2⟩

/-!
Single-call facade claims.
-/

/-- Claim C6: a name that fails to parse as a resource URI makes
`get_secret` fail with the invalid-resource-URI error carrying the name,
before the cell lock is touched: the event log is empty (no lock
acquisition, no backend construction) and the shared cell is unchanged. -/
theorem c6_uri_parse_purity {CC SEV OFS U B A : Type} (E : Env CC SEV OFS U B)
    (cell : Option (RealClient CC SEV OFS)) (name : String) (ann : A)
    (hparse : E.parseUri name = none) :
    KbcClient.get_secret E cell name ann =
      (.error (.KbsClientError (invalidResourceUriMsg name)), cell, []) := by
  unfold KbcClient.get_secret
  simp only [hparse]

/-- Claim C6, concrete instance: under `envOffline` the name
`"not a uri"` does not parse; `get_secret` fails without any event. -/
theorem c6_uri_parse_purity_witness :
    KbcClient.get_secret envOffline none "not a uri" 0 =
      (.error (.KbsClientError (invalidResourceUriMsg "not a uri")), none, []) :=
  c6_uri_parse_purity envOffline none "not a uri" 0 (by rfl)

/-- Claim C7: with the cell populated by client `c` and a parsable name,
`get_secret` is an exact pass-through of the backend: a byte payload is
returned unchanged, a backend error is surfaced unchanged, the cell keeps
the same client, and the log shows exactly one lock acquisition and one
backend fetch — no construction, no retry, no fallback. -/
theorem c7_backend_pass_through {CC SEV OFS U B A : Type} (E : Env CC SEV OFS U B)
    (c : RealClient CC SEV OFS) (name : String) (ann : A) (u : U)
    (hparse : E.parseUri name = some u) :
    (∀ b : B, RealClient.get_resource E c u = .ok b →
      (KbcClient.get_secret E (some c) name ann).1 = .ok b) ∧
    (∀ e : Error, RealClient.get_resource E c u = .error e →
      (KbcClient.get_secret E (some c) name ann).1 = .error e) ∧
    (KbcClient.get_secret E (some c) name ann).2.1 = some c ∧
    (KbcClient.get_secret E (some c) name ann).2.2 =
      [Event.lockAcquire, Event.backendFetch] := by
  have hval : KbcClient.get_secret E (some c) name ann =
      (RealClient.get_resource E c u, some c, [Event.lockAcquire, Event.backendFetch]) := by
    unfold KbcClient.get_secret
    simp only [hparse]
  refine ⟨?_, ?_, ?_, ?_⟩
  · intro b hb
    rw [hval]
    exact hb
  · intro e he
    rw [hval]
    exact he
  · rw [hval]
  · rw [hval]

/-- Claim C7, concrete instances: the offline backend's payload `42` is
returned exactly, and a backend error is surfaced exactly. -/
theorem c7_backend_pass_through_witness :
    (KbcClient.get_secret envOffline (some (RealClient.OfflineFs ()))
      "kbs:///default/credential/1" 0).1 = .ok 42 :=
  (c7_backend_pass_through envOffline (RealClient.OfflineFs ())
    "kbs:///default/credential/1" 0 () (by rfl)).1 42 (by rfl)

/-- Claim C9: `get_secret` ignores the `annotations` argument entirely —
for any two annotation values the result, the cell contents after the
call, and the event log are identical. -/
theorem c9_annotations_noninterference {CC SEV OFS U B A : Type}
    (E : Env CC SEV OFS U B) (cell : Option (RealClient CC SEV OFS))
    (name : String) (a1 a2 : A) :
    KbcClient.get_secret E cell name a1 = KbcClient.get_secret E cell name a2 := rfl

/-- Claim C5: when `RealClient::new` fails during `get_secret` or
`KbcClient::new`, the shared cell remains empty, exactly that error is
propagated to the caller, and any subsequent call that still finds the
cell empty invokes the constructor again (the `construct` event
reappears in its log) — construction is retried from scratch. -/
theorem c5_init_failure_atomicity {CC SEV OFS U B A : Type} (E : Env CC SEV OFS U B)
    (name : String) (ann : A) (u : U) (e : Error)
    (hparse : E.parseUri name = some u)
    (hfail : RealClient.new E = .error e) :
    KbcClient.get_secret E none name ann =
      (.error e, none, [Event.lockAcquire, Event.construct]) ∧
    KbcClient.new E none = (.error e, none, [Event.lockAcquire, Event.construct]) ∧
    (∀ (E2 : Env CC SEV OFS U B) (name2 : String) (ann2 : A) (u2 : U),
      E2.parseUri name2 = some u2 →
      Event.construct ∈ (KbcClient.get_secret E2 none name2 ann2).2.2) ∧
    (∀ E2 : Env CC SEV OFS U B, Event.construct ∈ (KbcClient.new E2 none).2.2) := by
  refine ⟨?_, ?_, ?_, ?_⟩
  · unfold KbcClient.get_secret
    simp only [hparse, hfail]
  · unfold KbcClient.new
    simp only [hfail]
  · intro E2 name2 ann2 u2 hp2
    unfold KbcClient.get_secret
    simp only [hp2]
    cases RealClient.new E2 <;> simp
  · intro E2
    unfold KbcClient.new
    cases RealClient.new E2 <;> simp

/-- Claim C5, concrete instance: a failing offline constructor leaves the
cell empty and surfaces its error through `get_secret`. -/
theorem c5_init_failure_atomicity_witness :
    KbcClient.get_secret envCtorFail none "kbs:///default/credential/1" 0 =
      (.error (.BackendSpecific "ctor boom"), none,
        [Event.lockAcquire, Event.construct]) :=
  (c5_init_failure_atomicity envCtorFail "kbs:///default/credential/1" 0 ()
    (.BackendSpecific "ctor boom") (by rfl) (by rfl)).1

/-!
Concurrency claims on the small-step machine.
-/

/-- Claim C1: along any interleaved execution of concurrent `get_secret`
and `KbcClient::new` calls, `RealClient::new` succeeds at most once; at
every invocation of `RealClient::new`, no earlier invocation has
succeeded and every earlier invocation has failed (so the constructor
runs again only after a prior attempt failed, and at most once in total
on the success path); and the cell lock serializes initialization and
all backend calls: at most one task at a time is in a lock-holding
phase. -/
theorem c1_at_most_once_construction {C U B A : Type} (parse : String → Option U)
    (reqs : List (Request A)) (tr : List Label) (cfg2 : Config C U B A)
    (htr : Trace parse (@initConfig C U B A reqs) tr cfg2) :
    countOk tr ≤ 1 ∧
    (∀ j, tr.get? j = some .invoke →
      countOk (tr.take j) = 0 ∧ countInvoke (tr.take j) = countErr (tr.take j)) ∧
    (∀ t t2 s s2, cfg2.tasks.get? t = some s → cfg2.tasks.get? t2 = some s2 →
      holdsLock s = true → holdsLock s2 = true → t = t2) := by
  have hinv := machInv_reach htr
  refine ⟨?_, ?_, ?_⟩
  · have h := hinv.okCell
    cases hcell : cfg2.cell with
    | none => rw [hcell] at h; simp at h; omega
    | some x => rw [hcell] at h; simp at h; omega
  · intro j hj
    obtain ⟨cmid, h1, h2⟩ := trace_split htr j
    rw [get?_drop_cons hj] at h2
    cases h2 with
    | step hstep htr3 =>
      have hmid := machInv_reach h1
      cases hstep with
      | invokeGs t u ht hlk hcell =>
        refine ⟨?_, ?_⟩
        · rw [hmid.okCell, hcell]
          rfl
        · have hnc := no_constr_of_holder hmid.lockHeld ht hlk rfl
          have h3 := hmid.nopend hnc
          have h4 := hmid.okCell
          rw [hcell] at h4
          simp only [Option.isSome_none, Bool.false_eq_true, if_false] at h4
          omega
      | invokeNw t ht hlk hcell =>
        refine ⟨?_, ?_⟩
        · rw [hmid.okCell, hcell]
          rfl
        · have hnc := no_constr_of_holder hmid.lockHeld ht hlk rfl
          have h3 := hmid.nopend hnc
          have h4 := hmid.okCell
          rw [hcell] at h4
          simp only [Option.isSome_none, Bool.false_eq_true, if_false] at h4
          omega
  · intro t t2 s s2 hg1 hg2 hh1 hh2
    have e1 := hinv.lockHeld t s hg1 hh1
    have e2 := hinv.lockHeld t2 s2 hg2 hh2
    rw [e1] at e2
    injection e2

/-- Claim C1, concrete instance: a five-step execution of one
`get_secret` call performs exactly one successful construction, and at
its invocation point no construction had succeeded. -/
theorem c1_at_most_once_construction_witness :
    countOk [Label.tau, Label.tau, Label.invoke, Label.ok, Label.tau] ≤ 1 ∧
    countOk (List.take 2 [Label.tau, Label.tau, Label.invoke, Label.ok, Label.tau]) = 0 := by
  have h := c1_at_most_once_construction (fun _ : String => some ())
      [Request.getSecret "kbs:///default/credential/1" 0]
      [Label.tau, Label.tau, Label.invoke, Label.ok, Label.tau] _
      (Trace.step (Step.parseOk _ 0 _ _ () rfl rfl)
        (Trace.step (Step.acquireGs _ 0 _ rfl rfl)
          (Trace.step (Step.invokeGs _ 0 _ rfl rfl rfl)
            (Trace.step (Step.constructOkGs _ 0 _ () rfl rfl)
              (Trace.step (Step.fetchGs _ 0 _ () (Except.ok 42) rfl rfl rfl)
                (Trace.refl _))))))
  exact ⟨h.1, (h.2.1 2 rfl).1⟩

/-- Claim C2: the shared cell starts empty; once a reachable
configuration has the cell populated with a client, every further
execution keeps exactly that client in the cell (never cleared, never
replaced — every later fetch dispatches on it); and along any execution
from the start the `None → Some` transition happens at most once. -/
theorem c2_shared_cell_invariant {C U B A : Type} (parse : String → Option U)
    (reqs : List (Request A)) :
    (@initConfig C U B A reqs).cell = none ∧
    (∀ (tr1 : List Label) (cmid : Config C U B A) (x : C),
      Trace parse (initConfig reqs) tr1 cmid → cmid.cell = some x →
      ∀ (tr2 : List Label) (cfg2 : Config C U B A),
        Trace parse cmid tr2 cfg2 → cfg2.cell = some x) ∧
    (∀ (tr : List Label) (cfg2 : Config C U B A),
      Trace parse (initConfig reqs) tr cfg2 → countOk tr ≤ 1) := by
  refine ⟨rfl, ?_, ?_⟩
  · intro tr1 cmid x htr1 hx tr2 cfg2 htr2
    exact cell_preserved_trace htr2 _ _ _ (machInv_reach htr1) hx
  · intro tr cfg2 htr
    have h := (machInv_reach htr).okCell
    cases hcell : cfg2.cell with
    | none => rw [hcell] at h; simp at h; omega
    | some x => rw [hcell] at h; simp at h; omega

/-- Claim C2, concrete instance: after a successful construction the
cell still holds the same client once the call finishes fetching. -/
theorem c2_shared_cell_invariant_witness :
    (⟨[TaskState.gsDone (Except.ok 42)], some (), none⟩ : Config Unit Unit Nat Nat).cell
      = some () := by
  have h := (c2_shared_cell_invariant (fun _ : String => some ())
      [Request.getSecret "kbs:///default/credential/1" 0]).2.1
      [Label.tau, Label.tau, Label.invoke, Label.ok] _ ()
      (Trace.step (Step.parseOk _ 0 _ _ () rfl rfl)
        (Trace.step (Step.acquireGs _ 0 _ rfl rfl)
          (Trace.step (Step.invokeGs _ 0 _ rfl rfl rfl)
            (Trace.step (Step.constructOkGs _ 0 _ () rfl rfl) (Trace.refl _)))))
      rfl [Label.tau] _
      (Trace.step (Step.fetchGs _ 0 _ () (Except.ok 42) rfl rfl rfl) (Trace.refl _))
  exact h
